import Mathlib

/-!
# Verification of the delivery-game core (`experiment/src/game.rs`)

A shallow embedding of the game's state machine: building classification,
the per-building delivery status map, the score/energy ledger, the
proximity resolver, and the per-tick event loop.  Durations (`geom::Duration`,
a signed number of seconds) and coordinates are modelled as integers: an
exact-arithmetic stand-in for the source's f64 values.  Every claim settled
here is an ordered-ring fact (ordering, clamping, linearity); none depends
on fractional or rounding behaviour.  The spec itself notes energy
arithmetic "may go negative", so no clamping is built into the type.
-/

namespace Experiment

/-- A 2D point (`Pt2D`), coordinates as integers. -/
abbrev Pt := ℤ × ℤ

/-- Building classification, following the spec's split
residential / commercial / other (`map_model::BuildingType`). -/
inductive BldgType
  | residential
  | commercial
  | otherType
deriving DecidableEq

/-- A catalog building: id, classification, amenity count, representative
point and footprint membership test (the polygon is abstracted to its
characteristic function). -/
structure Building where
  id : Nat
  bldgType : BldgType
  amenities : Nat
  labelCenter : Pt
  containsPt : Pt → Bool

/-- Per-building delivery status (`BldgState` in the source). -/
inductive BldgState
  | undelivered (score : Nat) (cost : ℤ)
  | depot
  | done
deriving DecidableEq

/-- An id returned by the spatial index (`map_gui::ID`): either a building
or some other map object, which the resolver skips. -/
inductive MapID
  | building (b : Nat)
  | otherObj
deriving DecidableEq

/-- The external map and spatial index (`SimpleApp`): the building catalog
and `draw_map.get_matching_objects` applied to the bounds of the radius-3
disc around a point (the radius is folded into this abstraction). -/
structure App where
  buildings : List Building
  getMatching : Pt → List MapID

/-- Lookup a building by id (`app.map.get_b`). -/
def getB (app : App) (i : Nat) : Option Building :=
  app.buildings.find? (fun b => b.id == i)

/-- Whether building `i`'s exact polygon contains `pt`
(`app.map.get_b(b).polygon.contains_pt(sleigh)`). -/
def bldgContains (app : App) (i : Nat) (pt : Pt) : Bool :=
  match getB app i with
  | some b => b.containsPt pt
  | none => false

/-- The `houses` map, `BuildingID -> BldgState`, as a partial function. -/
abbrev HMap := Nat → Option BldgState

/-- Classification of one catalog building at session start, from the body
of the loop in `SleighState::new`: residential buildings become
`Undelivered { score = id, cost = house_costs.get(id).unwrap_or(0) }`;
otherwise a building with at least one amenity becomes `Depot`; otherwise
no entry. -/
def classify (hc : Nat → Option ℤ) (b : Building) : Option BldgState :=
  match b.bldgType with
  | .residential => some (.undelivered b.id ((hc b.id).getD 0))
  | _ => if b.amenities ≠ 0 then some .depot else none

/-- One iteration of the `SleighState::new` loop: insert the building's
classification into the map (no entry for unclassified buildings). -/
def insertB (hc : Nat → Option ℤ) (h : HMap) (b : Building) : HMap :=
  match classify hc b with
  | some st => fun i => if i = b.id then some st else h i
  | none => h

/-- The `houses` map built by `SleighState::new`: the catalog scan, in
order, starting from the empty map. -/
def initHouses (hc : Nat → Option ℤ) (bs : List Building) : HMap :=
  bs.foldl (insertB hc) (fun _ => none)

/-- Gameplay configuration (`Config`). -/
structure Config where
  recharge_rate : ℤ
  max_energy : ℤ

/-- The concrete configuration from `SleighState::new`:
recharge rate 1000, max energy 90 minutes (5400 seconds). -/
def gameConfig : Config :=
  { recharge_rate := 1000, max_energy := 60 * 90 }

/-- The session state (`SleighState`).  `redrawCount` counts the uploads of
the `draw_done` batch, i.e. the calls to `SleighState::redraw`, so that
claims about when batches are rebuilt are observable. -/
structure SleighState where
  depot : Nat
  score : Nat
  energy : ℤ
  houses : HMap
  redrawCount : Nat
  config : Config

/-- `SleighState::new`: zero score, full energy, the classified houses map.
`redrawCount = 1` because `new` ends with one call to `redraw`. -/
def SleighState.new (app : App) (hc : Nat → Option ℤ) (depot : Nat) : SleighState :=
  { depot := depot
    score := 0
    energy := gameConfig.max_energy
    houses := initHouses hc app.buildings
    redrawCount := 1
    config := gameConfig }

/-- `SleighState::has_energy`: `energy > Duration::ZERO`. -/
def SleighState.has_energy (s : SleighState) : Bool :=
  decide (0 < s.energy)

/-- `SleighState::present_dropped`: if `houses[id]` is `Undelivered`, add
its score, mark it `Done`, subtract its cost from energy (plain
subtraction, no clamp in the source) and redraw; report whether the state
changed. -/
def SleighState.present_dropped (s : SleighState) (id : Nat) : SleighState × Bool :=
  match s.houses id with
  | some (.undelivered sc c) =>
      ({ s with
          score := s.score + sc
          houses := fun i => if i = id then some .done else s.houses i
          energy := s.energy - c
          redrawCount := s.redrawCount + 1 }, true)
  | _ => (s, false)

/-- `SleighState::recharge`: if `houses[id]` is `Depot`, add
`recharge_rate * dt` to energy, clamp to `max_energy` via `min`, and
redraw; report whether the state changed. -/
def SleighState.recharge (s : SleighState) (id : Nat) (dt : ℤ) : SleighState × Bool :=
  match s.houses id with
  | some .depot =>
      ({ s with
          energy := min (s.energy + s.config.recharge_rate * dt) s.config.max_energy
          redrawCount := s.redrawCount + 1 }, true)
  | _ => (s, false)

/-- Energy decay, from `Game::event`: `if !recharging && has_energy()
{ energy -= dt }` — subtraction gated by `has_energy`, with no lower
clamp. -/
def applyDecay (s : SleighState) (dt : ℤ) : SleighState :=
  if s.has_energy then { s with energy := s.energy - dt } else s

/-- Whether a `houses` entry makes the building interactive for the
resolver: `Undelivered` or `Depot` (`Done` and missing entries are not). -/
def isInteractive : Option BldgState → Bool
  | some (.undelivered _ _) => true
  | some .depot => true
  | _ => false

/-- The scan loop inside `OverBldg::key`: walk the spatial-index results in
order, skip non-buildings, and return the first building whose polygon
contains the point and whose status is interactive. -/
def scanKey (app : App) (houses : HMap) (pt : Pt) : List MapID → Option Nat
  | [] => none
  | mid :: rest =>
      match mid with
      | .building b =>
          if bldgContains app b pt then
            if isInteractive (houses b) then some b
            else scanKey app houses pt rest
          else scanKey app houses pt rest
      | .otherObj => scanKey app houses pt rest

/-- `OverBldg::key`: resolve the building currently under the sleigh by
scanning the spatial-index candidates for the radius-3 disc around it. -/
def OverBldg.key (app : App) (pt : Pt) (s : SleighState) : Option Nat :=
  scanKey app s.houses pt (app.getMatching pt)

/-- Modelled from the spec: `map_gui::Cached`, whose source is not under
`src/`.  Per the spec's ProximityCache update rule: if the candidate key
differs from the current key, replace it and recompute the highlight for
the new key (or clear it if `None`); if equal, no-op.  The second component
counts highlight recomputations. -/
def cachedUpdate (current : Option Nat) (recomputes : Nat) (candidate : Option Nat) :
    Option Nat × Nat :=
  if candidate = current then (current, recomputes)
  else
    match candidate with
    | some _ => (candidate, recomputes + 1)
    | none => (candidate, recomputes)

/-- The `Game` state: sleigh position, session state, the proximity
cache's key, plus instrumentation counters for highlight recomputations
and resolver invocations. -/
structure GState where
  sleigh : Pt
  state : SleighState
  overBldgKey : Option Nat
  highlightRecomputes : Nat
  resolveCalls : Nat

/-- `Game::new`: find the first commercial building in catalog order and
start there.  The source calls `.unwrap()` on the search result, a panic
when no commercial building exists; the panic is modelled as `none`. -/
def Game.new (app : App) (hc : Nat → Option ℤ) : Option GState :=
  match app.buildings.find? (fun b => b.bldgType == .commercial) with
  | some depot =>
      some
        { sleigh := depot.labelCenter
          state := SleighState.new app hc depot.id
          overBldgKey := none
          highlightRecomputes := 0
          resolveCalls := 0 }
  | none => none

/-- The per-tick inputs consumed by `Game::event`: the controller's
displacement, the optional update-event elapsed time, and whether the
recharge key (Space) is held. -/
structure TickInput where
  dx : ℤ
  dy : ℤ
  dt : Option ℤ
  spaceDown : Bool

/-- Movement stage of `Game::event`: if the displacement is nonzero, move
the sleigh and update the proximity cache with the freshly resolved key;
otherwise do nothing. -/
def moveStage (app : App) (inp : TickInput) (g : GState) : GState :=
  if inp.dx ≠ 0 ∨ inp.dy ≠ 0 then
    let sleigh : Pt := (g.sleigh.1 + inp.dx, g.sleigh.2 + inp.dy)
    let cand := OverBldg.key app sleigh g.state
    let kr := cachedUpdate g.overBldgKey g.highlightRecomputes cand
    { g with
        sleigh := sleigh
        overBldgKey := kr.1
        highlightRecomputes := kr.2
        resolveCalls := g.resolveCalls + 1 }
  else g

/-- Delivery stage of `Game::event`: if a building is keyed and the sleigh
has energy, attempt `present_dropped`; on success clear the cache.  The
boolean reports whether a delivery happened. -/
def deliverStage (g : GState) : GState × Bool :=
  match g.overBldgKey with
  | some b =>
      if g.state.has_energy then
        let sb := g.state.present_dropped b
        if sb.2 then ({ g with state := sb.1, overBldgKey := none }, true)
        else ({ g with state := sb.1 }, false)
      else (g, false)
  | none => (g, false)

/-- Update-event stage of `Game::event`: on an update event, attempt a
recharge when Space is held over a keyed building; if no recharge happened
and the sleigh has energy, decay by the elapsed time.  Returns
(state, recharged, decayed). -/
def updateStage (inp : TickInput) (g : GState) : GState × Bool × Bool :=
  match inp.dt with
  | some dt =>
      let gr : GState × Bool :=
        match g.overBldgKey with
        | some b =>
            if inp.spaceDown then
              let sb := g.state.recharge b dt
              ({ g with state := sb.1 }, sb.2)
            else (g, false)
        | none => (g, false)
      if !gr.2 && gr.1.state.has_energy then
        ({ gr.1 with state := applyDecay gr.1.state dt }, gr.2, true)
      else (gr.1, gr.2, false)
  | none => (g, false, false)

/-- One full tick of `Game::event`, with observables:
(new state, delivered, recharged, decayed). -/
def eventFull (app : App) (inp : TickInput) (g : GState) : GState × Bool × Bool × Bool :=
  let g1 := moveStage app inp g
  let gd := deliverStage g1
  let gu := updateStage inp gd.1
  (gu.1, gd.2, gu.2.1, gu.2.2)

/-- One full tick of `Game::event`, state only. -/
def Game.event (app : App) (inp : TickInput) (g : GState) : GState :=
  (eventFull app inp g).1

/-- Whether a delivery succeeded during a tick. -/
def tickDelivered (app : App) (inp : TickInput) (g : GState) : Bool :=
  (eventFull app inp g).2.1

/-- Whether a recharge succeeded during a tick. -/
def tickRecharged (app : App) (inp : TickInput) (g : GState) : Bool :=
  (eventFull app inp g).2.2.1

/-- Whether energy decay was applied during a tick. -/
def tickDecayed (app : App) (inp : TickInput) (g : GState) : Bool :=
  (eventFull app inp g).2.2.2

/-- An energy-affecting operation for invariant claims: a decay tick or a
recharge attempt at a building. -/
inductive EnergyOp
  | decay (dt : ℤ)
  | rechargeAt (id : Nat) (dt : ℤ)
deriving DecidableEq

/-- The elapsed time carried by an energy operation. -/
def EnergyOp.elapsed : EnergyOp → ℤ
  | .decay dt => dt
  | .rechargeAt _ dt => dt

/-- Apply one energy operation to the session state. -/
def applyOp (s : SleighState) : EnergyOp → SleighState
  | .decay dt => applyDecay s dt
  | .rechargeAt id dt => (s.recharge id dt).1

/-- Apply a sequence of energy operations in order. -/
def runOps (s : SleighState) (ops : List EnergyOp) : SleighState :=
  ops.foldl applyOp s

/-- The game states reachable from session construction by ticks. -/
inductive Reachable (app : App) (hc : Nat → Option ℤ) : GState → Prop
  | init (g : GState) : Game.new app hc = some g → Reachable app hc g
  | step (g : GState) (inp : TickInput) :
      Reachable app hc g → Reachable app hc (Game.event app inp g)

/-- Invariant of reachable states: a keyed building is never an
undelivered house while the sleigh still has energy (such a key is
delivered and cleared within the tick that produced it). -/
def SafeKey (g : GState) : Prop :=
  ∀ b, g.overBldgKey = some b →
    (∀ sc c, g.state.houses b ≠ some (.undelivered sc c)) ∨ g.state.energy ≤ 0

/-! ## Concrete fixture: a two-building city used by witnesses and
counterexamples.  Building 0 is a commercial depot with one amenity whose
footprint covers the half-plane `x ≤ 1`; building 7 is a residential house
whose footprint is the single point (2, 0).  The cost field gives house 7 a
travel cost of 100 seconds. -/

/-- Fixture: the commercial depot building. -/
def bDepot : Building :=
  { id := 0
    bldgType := .commercial
    amenities := 1
    labelCenter := (0, 0)
    containsPt := fun p => decide (p.1 ≤ 1) }

/-- Fixture: the residential house building. -/
def bHouse : Building :=
  { id := 7
    bldgType := .residential
    amenities := 0
    labelCenter := (2, 0)
    containsPt := fun p => decide (p = ((2 : ℤ), (0 : ℤ))) }

/-- Fixture: the two-building app; the spatial index always reports both
buildings plus one non-building object. -/
def capp : App :=
  { buildings := [bDepot, bHouse]
    getMatching := fun _ => [.otherObj, .building 0, .building 7] }

/-- Fixture: the cost field, assigning house 7 a cost of 100 seconds. -/
def chc : Nat → Option ℤ :=
  fun i => if i = 7 then some 100 else none

/-- Fixture: the constructed game state (construction succeeds because
building 0 is commercial). -/
def cg0 : GState :=
  (Game.new capp chc).get (by decide)

/-- Fixture: tick 1 input, a move of (1, 0) with no update event. -/
def cinp1 : TickInput :=
  { dx := 1, dy := 0, dt := none, spaceDown := false }

/-- Fixture: tick 2 input, zero displacement, an update event of 1 second,
recharge key held. -/
def cinp2 : TickInput :=
  { dx := 0, dy := 0, dt := some 1, spaceDown := true }

/-- Fixture: a zero-displacement tick with a 2-second update event. -/
def cinp0 : TickInput :=
  { dx := 0, dy := 0, dt := some 2, spaceDown := false }

/-- Fixture: the game state after tick 1 (sleigh over the depot, key 0). -/
def cg1 : GState :=
  Game.event capp cinp1 cg0

/-- Fixture: the game state after tick 2 (a recharge at full energy). -/
def cg2 : GState :=
  Game.event capp cinp2 cg1

/-- Fixture: a session with 1 second of energy left, obtained by decaying
the fresh session for 5399 seconds. -/
def cLow : SleighState :=
  applyDecay (SleighState.new capp chc 0) 5399

/-- Fixture: a commercial building with no amenities. -/
def bBare : Building :=
  { id := 4
    bldgType := .commercial
    amenities := 0
    labelCenter := (0, 0)
    containsPt := fun _ => true }

/-- Fixture: a city whose first (and only) commercial building has no
amenities. -/
def cappBare : App :=
  { buildings := [bHouse, bBare]
    getMatching := fun _ => [.building 4] }

/-! ## Theorems -/

/-- C1, counterexample: the claim says the energy resulting from a
successful delivery is clamped to be nonnegative.  In the session `cLow`
(1 second of energy, house 7 costs 100 seconds) the delivery succeeds and
leaves energy at -99 seconds, which is negative: `present_dropped`
performs plain subtraction with no clamp. -/
theorem C1_counterexample :
    (cLow.present_dropped 7).2 = true ∧
    (cLow.present_dropped 7).1.energy = -99 ∧
    ¬(0 ≤ (cLow.present_dropped 7).1.energy) := by
  decide

/-- C1 (amended): if `houses[id]` is `Undelivered{score, cost}`,
`present_dropped id` transitions that entry to `Done`, adds `score` to the
total score, subtracts `cost` from energy with NO clamping (the result may
be negative), leaves every other entry unchanged, and returns true; a
second call on the now-`Done` id returns false and changes nothing.  For
any other id (absent, `Depot`, or already `Done`) it returns false and
changes no state. -/
theorem C1_delivery (s : SleighState) (id : Nat) :
    (∀ sc c, s.houses id = some (.undelivered sc c) →
        (s.present_dropped id).2 = true ∧
        (s.present_dropped id).1.score = s.score + sc ∧
        (s.present_dropped id).1.energy = s.energy - c ∧
        (s.present_dropped id).1.houses id = some .done ∧
        (∀ j, j ≠ id → (s.present_dropped id).1.houses j = s.houses j) ∧
        (s.present_dropped id).1.present_dropped id = ((s.present_dropped id).1, false)) ∧
    ((∀ sc c, s.houses id ≠ some (.undelivered sc c)) →
        s.present_dropped id = (s, false)) := by
  constructor
  · intro sc c h
    simp only [SleighState.present_dropped, h]
    refine ⟨by simp, by simp, by simp, by simp, fun j hj => by simp [hj], ?_⟩
    simp
  · intro h
    rcases hh : s.houses id with _ | st
    · simp [SleighState.present_dropped, hh]
    · cases st with
      | undelivered sc c => exact absurd hh (h sc c)
      | depot => simp [SleighState.present_dropped, hh]
      | done => simp [SleighState.present_dropped, hh]

/-- C1, witness: in the session `cLow`, delivering to house 7 succeeds,
adds score 7 and subtracts the 100-second cost from energy. -/
theorem C1_witness :
    (cLow.present_dropped 7).2 = true ∧
    (cLow.present_dropped 7).1.score = cLow.score + 7 ∧
    (cLow.present_dropped 7).1.energy = cLow.energy - 100 :=
  ⟨((C1_delivery cLow 7).1 7 100 (by decide)).1,
   ((C1_delivery cLow 7).1 7 100 (by decide)).2.1,
   ((C1_delivery cLow 7).1 7 100 (by decide)).2.2.1⟩

/-- C5: if `houses[id]` is `Depot`, `recharge id dt` returns true and sets
energy to `min (energy + recharge_rate * dt) max_energy`; the result never
exceeds `max_energy`, and recharging past the ceiling leaves energy exactly
at `max_energy`.  For any other id it returns false and changes nothing. -/
theorem C5_recharge (s : SleighState) (id : Nat) (dt : ℤ) :
    (s.houses id = some .depot →
        (s.recharge id dt).2 = true ∧
        (s.recharge id dt).1.energy
          = min (s.energy + s.config.recharge_rate * dt) s.config.max_energy ∧
        (s.recharge id dt).1.energy ≤ s.config.max_energy ∧
        (s.config.max_energy ≤ s.energy + s.config.recharge_rate * dt →
            (s.recharge id dt).1.energy = s.config.max_energy)) ∧
    (s.houses id ≠ some .depot → s.recharge id dt = (s, false)) := by
  constructor
  · intro h
    simp only [SleighState.recharge, h]
    exact ⟨by simp, by simp, min_le_right _ _, fun hc => min_eq_right hc⟩
  · intro h
    rcases hh : s.houses id with _ | st
    · simp [SleighState.recharge, hh]
    · cases st with
      | undelivered sc c => simp [SleighState.recharge, hh]
      | depot => exact absurd hh h
      | done => simp [SleighState.recharge, hh]

/-- C5, witness: recharging for 1 second at depot 0 in a fresh full-energy
session succeeds and leaves energy exactly at the `max_energy` ceiling. -/
theorem C5_witness :
    ((SleighState.new capp chc 0).recharge 0 1).2 = true ∧
    ((SleighState.new capp chc 0).recharge 0 1).1.energy
      = (SleighState.new capp chc 0).config.max_energy :=
  ⟨((C5_recharge (SleighState.new capp chc 0) 0 1).1 (by decide)).1,
   ((C5_recharge (SleighState.new capp chc 0) 0 1).1 (by decide)).2.2.2 (by decide)⟩

/-- Neither decay nor a recharge attempt changes the configuration. -/
theorem applyOp_config (s : SleighState) (op : EnergyOp) :
    (applyOp s op).config = s.config := by
  cases op with
  | decay dt =>
      simp only [applyOp, applyDecay]
      split <;> rfl
  | rechargeAt id dt =>
      simp only [applyOp, SleighState.recharge]
      rcases hh : s.houses id with _ | st
      · rfl
      · cases st <;> rfl

/-- One energy operation with nonnegative elapsed time preserves the
energy ceiling. -/
theorem applyOp_energy_le (s : SleighState) (op : EnergyOp)
    (h : s.energy ≤ s.config.max_energy) (hdt : 0 ≤ op.elapsed) :
    (applyOp s op).energy ≤ (applyOp s op).config.max_energy := by
  rw [applyOp_config]
  cases op with
  | decay dt =>
      simp only [applyOp, applyDecay]
      split
      · simp only
        have : s.energy - dt ≤ s.energy := by
          have : (0 : ℤ) ≤ dt := hdt
          omega
        exact le_trans this h
      · exact h
  | rechargeAt id dt =>
      simp only [applyOp, SleighState.recharge]
      rcases hh : s.houses id with _ | st
      · exact h
      · cases st with
        | undelivered sc c => exact h
        | depot => exact min_le_right _ _
        | done => exact h

/-- C2, counterexample: from the freshly constructed session (energy at the
5400-second ceiling), a single decay operation of 6000 seconds — a decay
tick is applied whenever `has_energy()` holds, with no lower clamp — leaves
energy at -600, violating the claimed invariant `0 ≤ energy`. -/
theorem C2_counterexample :
    (runOps (SleighState.new capp chc 0) [.decay 6000]).energy = -600 ∧
    ¬(0 ≤ (runOps (SleighState.new capp chc 0) [.decay 6000]).energy) := by
  decide

/-- C2 (amended): after any sequence of decay and recharge operations with
nonnegative elapsed times, starting from a state satisfying
`energy ≤ max_energy`, the upper bound `energy ≤ max_energy` still holds.
The lower bound `0 ≤ energy` of the original claim does not hold: decay
subtracts the elapsed time without clamping. -/
theorem C2_energy_upper_bound (s : SleighState) (ops : List EnergyOp)
    (hs : s.energy ≤ s.config.max_energy)
    (hops : ∀ op ∈ ops, 0 ≤ op.elapsed) :
    (runOps s ops).energy ≤ (runOps s ops).config.max_energy := by
  induction ops generalizing s with
  | nil => exact hs
  | cons op rest ih =>
      simp only [runOps, List.foldl_cons]
      have h1 : (applyOp s op).energy ≤ (applyOp s op).config.max_energy :=
        applyOp_energy_le s op hs (hops op (by simp))
      exact ih (applyOp s op) h1 (fun o ho => hops o (by simp [ho]))

/-- C2, witness: a decay of 10 seconds followed by a 2-second recharge at
depot 0, from the fresh session, keeps energy at or below the ceiling. -/
theorem C2_witness :
    (runOps (SleighState.new capp chc 0) [.decay 10, .rechargeAt 0 2]).energy
      ≤ (runOps (SleighState.new capp chc 0) [.decay 10, .rechargeAt 0 2]).config.max_energy :=
  C2_energy_upper_bound (SleighState.new capp chc 0) [.decay 10, .rechargeAt 0 2]
    (by decide) (by decide)

/-- The catalog scan never creates an entry at an id that no scanned
building carries. -/
theorem foldl_insertB_eq_of_not_mem (hc : Nat → Option ℤ) (bs : List Building)
    (m : HMap) (i : Nat) (h : ∀ b ∈ bs, b.id ≠ i) :
    bs.foldl (insertB hc) m i = m i := by
  induction bs generalizing m with
  | nil => rfl
  | cons c rest ih =>
      have hc0 : c.id ≠ i := h c (by simp)
      have hrest : ∀ b ∈ rest, b.id ≠ i := fun b hb => h b (by simp [hb])
      simp only [List.foldl_cons]
      rw [ih _ hrest]
      cases hcl : classify hc c with
      | none => simp [insertB, hcl]
      | some st => simp [insertB, hcl, if_neg (Ne.symm hc0)]

/-- Under distinct catalog ids, the entry the scan leaves at a building's
id is exactly that building's classification. -/
theorem foldl_insertB_lookup (hc : Nat → Option ℤ) (bs : List Building) :
    ∀ (m : HMap), (bs.map Building.id).Nodup → ∀ b, b ∈ bs → m b.id = none →
      bs.foldl (insertB hc) m b.id = classify hc b := by
  induction bs with
  | nil =>
      intro m _ b hb
      cases hb
  | cons c rest ih =>
      intro m hnd b hb hm
      have hnd' : (∀ x ∈ rest, ¬x.id = c.id) ∧ (rest.map Building.id).Nodup := by
        simpa using hnd
      simp only [List.foldl_cons]
      rcases List.mem_cons.mp hb with rfl | hbr
      · have hrest : ∀ x ∈ rest, x.id ≠ b.id := fun x hx => hnd'.1 x hx
        rw [foldl_insertB_eq_of_not_mem hc rest _ _ hrest]
        cases hcl : classify hc b with
        | none => simp [insertB, hcl, hm]
        | some st => simp [insertB, hcl]
      · have hbi : b.id ≠ c.id := hnd'.1 b hbr
        apply ih (insertB hc m c) hnd'.2 b hbr
        cases hcl : classify hc c with
        | none => simpa [insertB, hcl] using hm
        | some st => simpa [insertB, hcl, if_neg hbi] using hm

/-- A building classifies as `Depot` iff it is non-residential with at
least one amenity. -/
theorem classify_depot_iff (hc : Nat → Option ℤ) (b : Building) :
    classify hc b = some .depot ↔ (b.amenities ≠ 0 ∧ b.bldgType ≠ .residential) := by
  cases hb : b.bldgType with
  | residential => simp [classify, hb]
  | commercial => by_cases ha : b.amenities = 0 <;> simp [classify, hb, ha]
  | otherType => by_cases ha : b.amenities = 0 <;> simp [classify, hb, ha]

/-- A building classifies as `Undelivered` iff it is residential. -/
theorem classify_undelivered_iff (hc : Nat → Option ℤ) (b : Building) :
    (∃ sc c, classify hc b = some (.undelivered sc c)) ↔ b.bldgType = .residential := by
  cases hb : b.bldgType with
  | residential => simp [classify, hb]
  | commercial => by_cases ha : b.amenities = 0 <;> simp [classify, hb, ha]
  | otherType => by_cases ha : b.amenities = 0 <;> simp [classify, hb, ha]

/-- A building classifies as absent iff it is non-residential with no
amenity. -/
theorem classify_none_iff (hc : Nat → Option ℤ) (b : Building) :
    classify hc b = none ↔ (b.amenities = 0 ∧ b.bldgType ≠ .residential) := by
  cases hb : b.bldgType with
  | residential => simp [classify, hb]
  | commercial => by_cases ha : b.amenities = 0 <;> simp [classify, hb, ha]
  | otherType => by_cases ha : b.amenities = 0 <;> simp [classify, hb, ha]

/-- C3: after session initialization (with distinct catalog ids), a
building has a `Depot` entry iff it has at least one amenity and is not
residential, an `Undelivered` entry iff it is residential, and no entry
otherwise; ids outside the catalog have no entry.  Moreover no operation
changes a building's classification: recharge never touches the map, and
delivery preserves `Depot` entries, `Done` entries, and absence (entries
are never removed). -/
theorem C3_classification (app : App) (hc : Nat → Option ℤ) (dep : Nat)
    (hnd : (app.buildings.map Building.id).Nodup) :
    (∀ b ∈ app.buildings,
        ((SleighState.new app hc dep).houses b.id = some .depot ↔
            (b.amenities ≠ 0 ∧ b.bldgType ≠ .residential)) ∧
        ((∃ sc c, (SleighState.new app hc dep).houses b.id = some (.undelivered sc c)) ↔
            b.bldgType = .residential) ∧
        ((SleighState.new app hc dep).houses b.id = none ↔
            (b.amenities = 0 ∧ b.bldgType ≠ .residential))) ∧
    (∀ i, (∀ b ∈ app.buildings, b.id ≠ i) → (SleighState.new app hc dep).houses i = none) ∧
    (∀ (t : SleighState) (id j : Nat) (dt : ℤ),
        ((t.recharge j dt).1.houses = t.houses) ∧
        (t.houses id = some .depot → (t.present_dropped j).1.houses id = some .depot) ∧
        (t.houses id = some .done → (t.present_dropped j).1.houses id = some .done) ∧
        (t.houses id = none → (t.present_dropped j).1.houses id = none)) := by
  refine ⟨?_, ?_, ?_⟩
  · intro b hb
    have hlook : (SleighState.new app hc dep).houses b.id = classify hc b := by
      simp only [SleighState.new]
      exact foldl_insertB_lookup hc app.buildings _ hnd b hb rfl

    rw [hlook]
    exact ⟨classify_depot_iff hc b, classify_undelivered_iff hc b, classify_none_iff hc b⟩
  · intro i hi
    simp only [SleighState.new]
    exact foldl_insertB_eq_of_not_mem hc app.buildings _ i hi
  · intro t id j dt
    refine ⟨?_, ?_, ?_, ?_⟩
    · rcases hh : t.houses j with _ | st
      · simp [SleighState.recharge, hh]
      · cases st <;> simp [SleighState.recharge, hh]
    all_goals
      intro hid
      rcases hh : t.houses j with _ | st
      · simpa [SleighState.present_dropped, hh] using hid
      · cases st with
        | undelivered sc c =>
            have hij : id ≠ j := by
              intro he
              rw [he, hh] at hid
              simp at hid
            simp [SleighState.present_dropped, hh, if_neg hij, hid]
        | depot => simpa [SleighState.present_dropped, hh] using hid
        | done => simpa [SleighState.present_dropped, hh] using hid

/-- An onlooker's view of one `houses` entry being interactive. -/
theorem isInteractive_iff (o : Option BldgState) :
    isInteractive o = true ↔
      ((∃ sc c, o = some (.undelivered sc c)) ∨ o = some .depot) := by
  rcases o with _ | st
  · simp [isInteractive]
  · cases st <;> simp [isInteractive]

/-- Soundness of the scan loop of `OverBldg::key` over any candidate
list: a hit is a listed building whose polygon contains the point and
whose status is interactive, and if no listed building qualifies the scan
returns `none`. -/
theorem scanKey_sound (app : App) (houses : HMap) (pt : Pt) (l : List MapID) :
    (∀ b, scanKey app houses pt l = some b →
        MapID.building b ∈ l ∧ bldgContains app b pt = true ∧
        isInteractive (houses b) = true) ∧
    ((∀ b, MapID.building b ∈ l →
        ¬(bldgContains app b pt = true ∧ isInteractive (houses b) = true)) →
      scanKey app houses pt l = none) := by
  induction l with
  | nil => simp [scanKey]
  | cons mid rest ih =>
      cases mid with
      | building b0 =>
          by_cases h1 : bldgContains app b0 pt = true
          · by_cases h2 : isInteractive (houses b0) = true
            · constructor
              · intro b hb
                simp only [scanKey, h1, h2, if_true] at hb
                obtain rfl : b0 = b := by simpa using hb
                exact ⟨by simp, h1, h2⟩
              · intro hno
                exact absurd ⟨h1, h2⟩ (hno b0 (by simp))
            · constructor
              · intro b hb
                simp only [scanKey, h1, h2, if_true, if_false] at hb
                obtain ⟨ha, hb2, hb3⟩ := ih.1 b hb
                exact ⟨by simp [ha], hb2, hb3⟩
              · intro hno
                simp only [scanKey, h1, h2, if_true, if_false]
                exact ih.2 (fun b hb => hno b (by simp [hb]))
          · constructor
            · intro b hb
              simp only [scanKey, h1, if_false] at hb
              obtain ⟨ha, hb2, hb3⟩ := ih.1 b hb
              exact ⟨by simp [ha], hb2, hb3⟩
            · intro hno
              simp only [scanKey, h1, if_false]
              exact ih.2 (fun b hb => hno b (by simp [hb]))
      | otherObj =>
          constructor
          · intro b hb
            simp only [scanKey] at hb
            obtain ⟨ha, hb2, hb3⟩ := ih.1 b hb
            exact ⟨by simp [ha], hb2, hb3⟩
          · intro hno
            simp only [scanKey]
            exact ih.2 (fun b hb => hno b (by simp [hb]))

/-- C4: `OverBldg::key` returns `some b` only for a building among the
spatial-index candidates for the radius-3 disc around the position, whose
exact polygon contains the position, and whose `houses` status is
`Undelivered` or `Depot`; a building whose entry is `Done` or missing is
never returned, and if no candidate qualifies the result is `none`. -/
theorem C4_resolve (app : App) (s : SleighState) (pt : Pt) :
    (∀ b, OverBldg.key app pt s = some b →
        MapID.building b ∈ app.getMatching pt ∧
        bldgContains app b pt = true ∧
        ((∃ sc c, s.houses b = some (.undelivered sc c)) ∨ s.houses b = some .depot)) ∧
    (∀ b, (s.houses b = some .done ∨ s.houses b = none) →
        OverBldg.key app pt s ≠ some b) ∧
    ((∀ b, MapID.building b ∈ app.getMatching pt →
        ¬(bldgContains app b pt = true ∧ isInteractive (s.houses b) = true)) →
      OverBldg.key app pt s = none) := by
  refine ⟨?_, ?_, ?_⟩
  · intro b hb
    obtain ⟨h1, h2, h3⟩ := (scanKey_sound app s.houses pt (app.getMatching pt)).1 b hb
    exact ⟨h1, h2, (isInteractive_iff (s.houses b)).mp h3⟩
  · intro b hst hb
    obtain ⟨_, _, h3⟩ := (scanKey_sound app s.houses pt (app.getMatching pt)).1 b hb
    rcases hst with hd | hn
    · rw [hd] at h3
      simp [isInteractive] at h3
    · rw [hn] at h3
      simp [isInteractive] at h3
  · exact (scanKey_sound app s.houses pt (app.getMatching pt)).2

/-- C4, witness: at point (1, 0) in the fixture the resolver returns
building 0, which is listed by the spatial index, contains the point, and
is a `Depot`; and it never returns the id 3, which has no entry. -/
theorem C4_witness :
    (MapID.building 0 ∈ capp.getMatching (1, 0) ∧
      bldgContains capp 0 (1, 0) = true ∧
      ((∃ sc c, (SleighState.new capp chc 0).houses 0 = some (.undelivered sc c)) ∨
        (SleighState.new capp chc 0).houses 0 = some .depot)) ∧
    OverBldg.key capp (1, 0) (SleighState.new capp chc 0) ≠ some 3 :=
  ⟨(C4_resolve capp (SleighState.new capp chc 0) (1, 0)).1 0 (by decide),
   (C4_resolve capp (SleighState.new capp chc 0) (1, 0)).2.1 3 (Or.inr (by decide))⟩

/-- `List.find?` returns the first element satisfying the predicate when
the list splits as non-matching prefix, match, rest. -/
theorem find?_first_of_split {α : Type} (p : α → Bool) (l₁ l₂ : List α) (b : α)
    (hb : p b = true) (h₁ : ∀ a ∈ l₁, p a = false) :
    (l₁ ++ b :: l₂).find? p = some b := by
  induction l₁ with
  | nil => simp [List.find?, hb]
  | cons a rest ih =>
      have ha : p a = false := h₁ a (by simp)
      simp only [List.cons_append, List.find?, ha]
      exact ih (fun x hx => h₁ x (by simp [hx]))

/-- C6: session construction fails (the source panics on `unwrap`) when no
commercial building exists; when the catalog splits as a commercial-free
prefix followed by a commercial building, construction succeeds with that
building as the session's fixed depot origin and start position — and no
operation ever changes the stored depot origin. -/
theorem C6_depot_selection (app : App) (hc : Nat → Option ℤ) :
    ((∀ b ∈ app.buildings, b.bldgType ≠ .commercial) → Game.new app hc = none) ∧
    (∀ l₁ b l₂, app.buildings = l₁ ++ b :: l₂ → b.bldgType = .commercial →
        (∀ a ∈ l₁, a.bldgType ≠ .commercial) →
        ∃ g, Game.new app hc = some g ∧ g.state.depot = b.id ∧ g.sleigh = b.labelCenter) ∧
    (∀ (t : SleighState) (j : Nat) (dt : ℤ),
        (t.present_dropped j).1.depot = t.depot ∧ (t.recharge j dt).1.depot = t.depot) := by
  refine ⟨?_, ?_, ?_⟩
  · intro hno
    have hfind : app.buildings.find? (fun b => b.bldgType == .commercial) = none := by
      rw [List.find?_eq_none]
      intro a ha
      simpa using hno a ha
    simp [Game.new, hfind]
  · intro l₁ b l₂ hsplit hbc h₁
    have hfind : app.buildings.find? (fun b => b.bldgType == .commercial) = some b := by
      rw [hsplit]
      exact find?_first_of_split _ l₁ l₂ b (by simp [hbc]) (fun a ha => by
        simpa using h₁ a ha)
    refine ⟨{ sleigh := b.labelCenter, state := SleighState.new app hc b.id,
              overBldgKey := none, highlightRecomputes := 0, resolveCalls := 0 },
            ?_, rfl, rfl⟩
    simp [Game.new, hfind]
  · intro t j dt
    constructor
    · rcases hh : t.houses j with _ | st
      · simp [SleighState.present_dropped, hh]
      · cases st <;> simp [SleighState.present_dropped, hh]
    · rcases hh : t.houses j with _ | st
      · simp [SleighState.recharge, hh]
      · cases st <;> simp [SleighState.recharge, hh]

/-- C6, witness: in the fixture the first (and only) commercial building
is building 0, so construction succeeds with depot origin 0 and the
sleigh starting at its label center. -/
theorem C6_witness :
    ∃ g, Game.new capp chc = some g ∧ g.state.depot = bDepot.id ∧
      g.sleigh = bDepot.labelCenter :=
  (C6_depot_selection capp chc).2.1 [] bDepot [bHouse] rfl rfl (by simp)

/-- C3, witness: in the two-building fixture, building 0 (commercial, one
amenity) gets a `Depot` entry and building 7 (residential) an
`Undelivered` entry; id 3 belongs to no building and has no entry. -/
theorem C3_witness :
    (SleighState.new capp chc 0).houses bDepot.id = some .depot ∧
    (∃ sc c, (SleighState.new capp chc 0).houses bHouse.id = some (.undelivered sc c)) ∧
    (SleighState.new capp chc 0).houses 3 = none :=
  ⟨((C3_classification capp chc 0 (by decide)).1 bDepot (by simp [capp])).1.mpr (by decide),
   ((C3_classification capp chc 0 (by decide)).1 bHouse (by simp [capp])).2.1.mpr (by decide),
   (C3_classification capp chc 0 (by decide)).2.1 3 (by
      intro b hb
      simp only [capp, List.mem_cons, List.mem_singleton, List.not_mem_nil, or_false] at hb
      rcases hb with rfl | rfl
      · decide
      · decide)⟩

/-- C10: if the first commercial building of the catalog has no amenities,
then (under distinct catalog ids) the constructed session has no `houses`
entry for the depot-origin building, so `recharge` at the starting
building always returns false with no state change: the agent cannot
recharge where it starts. -/
theorem C10_depot_origin_bare (app : App) (hc : Nat → Option ℤ) (dep : Building)
    (hnd : (app.buildings.map Building.id).Nodup)
    (hfind : app.buildings.find? (fun b => b.bldgType == .commercial) = some dep)
    (hamen : dep.amenities = 0) :
    ∃ g, Game.new app hc = some g ∧
      g.state.houses dep.id = none ∧
      ∀ dt, g.state.recharge dep.id dt = (g.state, false) := by
  have hmem : dep ∈ app.buildings := List.mem_of_find?_eq_some hfind
  have hcom : dep.bldgType = .commercial := by
    have := List.find?_some hfind
    simpa using this
  have hnone : (SleighState.new app hc dep.id).houses dep.id = none := by
    have hlook : (SleighState.new app hc dep.id).houses dep.id = classify hc dep := by
      simp only [SleighState.new]
      exact foldl_insertB_lookup hc app.buildings _ hnd dep hmem rfl
    rw [hlook]
    exact (classify_none_iff hc dep).mpr ⟨hamen, by simp [hcom]⟩
  refine ⟨{ sleigh := dep.labelCenter, state := SleighState.new app hc dep.id,
            overBldgKey := none, highlightRecomputes := 0, resolveCalls := 0 },
          by simp [Game.new, hfind], hnone, ?_⟩
  intro dt
  simp [SleighState.recharge, hnone]

/-- C10, witness: in the bare-depot fixture, construction succeeds,
building 4 (the first commercial building, with no amenities) has no
`houses` entry, and recharging there fails. -/
theorem C10_witness :
    ∃ g, Game.new cappBare chc = some g ∧
      g.state.houses bBare.id = none ∧
      ∀ dt, g.state.recharge bBare.id dt = (g.state, false) :=
  C10_depot_origin_bare cappBare chc bBare (by decide) rfl rfl

/-- Movement never changes the session state (only position and the
proximity cache). -/
theorem moveStage_state (app : App) (inp : TickInput) (g : GState) :
    (moveStage app inp g).state = g.state := by
  unfold moveStage
  split <;> rfl

/-- A delivery attempt bumps the `draw_done` rebuild counter exactly when
it reports a state change. -/
theorem present_dropped_redraw (s : SleighState) (id : Nat) :
    (s.present_dropped id).1.redrawCount
      = s.redrawCount + (if (s.present_dropped id).2 = true then 1 else 0) := by
  rcases hh : s.houses id with _ | st
  · simp [SleighState.present_dropped, hh]
  · cases st <;> simp [SleighState.present_dropped, hh]

/-- A recharge attempt bumps the `draw_done` rebuild counter exactly when
it reports a state change. -/
theorem recharge_redraw (s : SleighState) (id : Nat) (dt : ℤ) :
    (s.recharge id dt).1.redrawCount
      = s.redrawCount + (if (s.recharge id dt).2 = true then 1 else 0) := by
  rcases hh : s.houses id with _ | st
  · simp [SleighState.recharge, hh]
  · cases st <;> simp [SleighState.recharge, hh]

/-- Decay never rebuilds a batch. -/
theorem applyDecay_redraw (s : SleighState) (dt : ℤ) :
    (applyDecay s dt).redrawCount = s.redrawCount := by
  unfold applyDecay
  split <;> rfl

/-- The delivery stage bumps the rebuild counter exactly when a delivery
happened. -/
theorem deliverStage_redraw (g : GState) :
    (deliverStage g).1.state.redrawCount
      = g.state.redrawCount + (if (deliverStage g).2 = true then 1 else 0) := by
  rcases hk : g.overBldgKey with _ | b
  · simp [deliverStage, hk]
  · by_cases hE : g.state.has_energy = true
    · by_cases h2 : (g.state.present_dropped b).2 = true
      · simp [deliverStage, hk, hE, h2, present_dropped_redraw]
      · simp [deliverStage, hk, hE, h2, present_dropped_redraw]
    · simp [deliverStage, hk, hE]

/-- The update-event stage bumps the rebuild counter exactly when a
recharge happened. -/
theorem updateStage_redraw (inp : TickInput) (g : GState) :
    (updateStage inp g).1.state.redrawCount
      = g.state.redrawCount + (if (updateStage inp g).2.1 = true then 1 else 0) := by
  rcases hdt : inp.dt with _ | dt
  · simp [updateStage, hdt]
  · rcases hk : g.overBldgKey with _ | b
    · simp only [updateStage, hdt, hk]
      split <;> simp [applyDecay_redraw]
    · by_cases hsp : inp.spaceDown = true
      · simp only [updateStage, hdt, hk]
        rw [if_pos hsp]
        split <;> simp [applyDecay_redraw, recharge_redraw]
      · simp only [updateStage, hdt, hk]
        rw [if_neg hsp]
        split <;> simp [applyDecay_redraw]

/-- C7 (amended): the `draw_done` rendering batch is rebuilt in a tick
exactly once per state-changing operation that reports success — a
delivery or a successful recharge — and never otherwise.  (The original
claim fails because a successful recharge at full energy reports a state
change and rebuilds the batch even though score, energy and every
building's status are unchanged; see the counterexample.) -/
theorem C7_redraw_on_op (app : App) (inp : TickInput) (g : GState) :
    (Game.event app inp g).state.redrawCount
      = g.state.redrawCount
        + (if tickDelivered app inp g = true then 1 else 0)
        + (if tickRecharged app inp g = true then 1 else 0) := by
  simp only [Game.event, tickDelivered, tickRecharged, eventFull]
  rw [updateStage_redraw, deliverStage_redraw, moveStage_state]

/-- C7, counterexample: tick `cinp2` (zero displacement, recharge held
over depot 0 with energy already at the ceiling) leaves score, energy and
every building's status unchanged, yet rebuilds the `draw_done` batch:
the rebuild counter increases by one. -/
theorem C7_counterexample :
    cg2.state.score = cg1.state.score ∧
    cg2.state.energy = cg1.state.energy ∧
    cg2.state.houses = cg1.state.houses ∧
    cg2.state.redrawCount = cg1.state.redrawCount + 1 := by
  refine ⟨by decide, by decide, rfl, by decide⟩

/-- In the update-event stage, recharge and decay never both fire, and a
decay starts from positive energy and subtracts exactly the elapsed
time. -/
theorem updateStage_excl (inp : TickInput) (g : GState) :
    ((updateStage inp g).2.1 && (updateStage inp g).2.2) = false ∧
    ((updateStage inp g).2.2 = true →
        0 < (updateStage inp g).1.state.energy + inp.dt.getD 0) := by
  rcases hdt : inp.dt with _ | dt
  · simp [updateStage, hdt]
  · rcases hk : g.overBldgKey with _ | b
    · by_cases hE : g.state.has_energy = true
      · have h0 : (0 : ℤ) < g.state.energy := by
          simpa [SleighState.has_energy] using hE
        simp [updateStage, hdt, hk, hE, applyDecay, sub_add_cancel, h0]
      · simp [updateStage, hdt, hk, hE]
    · by_cases hsp : inp.spaceDown = true
      · by_cases h2 : (g.state.recharge b dt).2 = true
        · simp [updateStage, hdt, hk, hsp, h2]
        · by_cases hE : (g.state.recharge b dt).1.has_energy = true
          · have h0 : (0 : ℤ) < (g.state.recharge b dt).1.energy := by
              simpa [SleighState.has_energy] using hE
            simp [updateStage, hdt, hk, hsp, h2, hE, applyDecay, sub_add_cancel, h0]
          · simp [updateStage, hdt, hk, hsp, h2, hE]
      · by_cases hE : g.state.has_energy = true
        · have h0 : (0 : ℤ) < g.state.energy := by
            simpa [SleighState.has_energy] using hE
          simp [updateStage, hdt, hk, hsp, hE, applyDecay, sub_add_cancel, h0]
        · simp [updateStage, hdt, hk, hsp, hE]

/-- C8: recharge and decay are mutually exclusive within a tick — a tick
never reports both — and when decay is applied the pre-decay state had
positive energy (decay only runs while `has_energy()` holds, and it
subtracts exactly the elapsed time). -/
theorem C8_recharge_decay_exclusive (app : App) (inp : TickInput) (g : GState) :
    (tickRecharged app inp g && tickDecayed app inp g) = false ∧
    (tickDecayed app inp g = true →
        0 < (Game.event app inp g).state.energy + inp.dt.getD 0) := by
  have h := updateStage_excl inp (deliverStage (moveStage app inp g)).1
  simpa [Game.event, tickRecharged, tickDecayed, eventFull] using h

/-- C8, witness: in tick `cinp2` from state `cg1` a recharge succeeds, so
recharge and decay do not both fire. -/
theorem C8_witness :
    (tickRecharged capp cinp2 cg1 && tickDecayed capp cinp2 cg1) = false :=
  (C8_recharge_decay_exclusive capp cinp2 cg1).1

/-- C7, witness instance of the amended equation at the fixture tick. -/
theorem C7_witness :
    (Game.event capp cinp2 cg1).state.redrawCount
      = cg1.state.redrawCount
        + (if tickDelivered capp cinp2 cg1 = true then 1 else 0)
        + (if tickRecharged capp cinp2 cg1 = true then 1 else 0) :=
  C7_redraw_on_op capp cinp2 cg1

/-- The proximity cache always ends up holding the candidate key it was
updated with. -/
theorem cachedUpdate_key (cur : Option Nat) (rec : Nat) (cand : Option Nat) :
    (cachedUpdate cur rec cand).1 = cand := by
  unfold cachedUpdate
  split
  · rename_i h
    exact h.symm
  · split <;> rfl

/-- A recharge attempt never changes the houses map. -/
theorem recharge_houses (s : SleighState) (id : Nat) (dt : ℤ) :
    (s.recharge id dt).1.houses = s.houses := by
  rcases hh : s.houses id with _ | st
  · simp [SleighState.recharge, hh]
  · cases st <;> simp [SleighState.recharge, hh]

/-- Decay never changes the houses map. -/
theorem applyDecay_houses (s : SleighState) (dt : ℤ) :
    (applyDecay s dt).houses = s.houses := by
  unfold applyDecay
  split <;> rfl

/-- The update-event stage never changes the cache key, the recompute
counters, or the houses map. -/
theorem updateStage_aux (inp : TickInput) (g : GState) :
    (updateStage inp g).1.overBldgKey = g.overBldgKey ∧
    (updateStage inp g).1.highlightRecomputes = g.highlightRecomputes ∧
    (updateStage inp g).1.resolveCalls = g.resolveCalls ∧
    (updateStage inp g).1.state.houses = g.state.houses := by
  rcases hdt : inp.dt with _ | dt
  · simp [updateStage, hdt]
  · rcases hk : g.overBldgKey with _ | b
    · simp only [updateStage, hdt, hk]
      split <;> simp [applyDecay_houses, hk]
    · by_cases hsp : inp.spaceDown = true
      · simp only [updateStage, hdt, hk]
        rw [if_pos hsp]
        split <;> simp [applyDecay_houses, recharge_houses, hk]
      · simp only [updateStage, hdt, hk]
        rw [if_neg hsp]
        split <;> simp [applyDecay_houses, hk]

/-- The delivery stage never touches the recompute counters. -/
theorem deliverStage_aux (g : GState) :
    (deliverStage g).1.highlightRecomputes = g.highlightRecomputes ∧
    (deliverStage g).1.resolveCalls = g.resolveCalls := by
  rcases hk : g.overBldgKey with _ | b
  · simp [deliverStage, hk]
  · by_cases hE : g.state.has_energy = true
    · by_cases hp : (g.state.present_dropped b).2 = true
      · simp [deliverStage, hk, hE, hp]
      · simp [deliverStage, hk, hE, hp]
    · simp [deliverStage, hk, hE]

/-- A delivery stage that reports no delivery changes neither key nor
session state. -/
theorem deliverStage_false (g : GState) (h2 : (deliverStage g).2 = false) :
    (deliverStage g).1.overBldgKey = g.overBldgKey ∧
    (deliverStage g).1.state = g.state := by
  rcases hk : g.overBldgKey with _ | b
  · simp [deliverStage, hk]
  · by_cases hE : g.state.has_energy = true
    · rcases hh : g.state.houses b with _ | st
      · simp [deliverStage, hk, hE, SleighState.present_dropped, hh]
      · cases st with
        | undelivered sc c =>
            exfalso
            simp [deliverStage, hk, hE, SleighState.present_dropped, hh] at h2
        | depot => simp [deliverStage, hk, hE, SleighState.present_dropped, hh]
        | done => simp [deliverStage, hk, hE, SleighState.present_dropped, hh]
    · simp [deliverStage, hk, hE]

/-- A delivery stage that reports a delivery clears the cache key. -/
theorem deliverStage_true (g : GState) (h2 : (deliverStage g).2 = true) :
    (deliverStage g).1.overBldgKey = none := by
  rcases hk : g.overBldgKey with _ | b
  · simp [deliverStage, hk] at h2
  · by_cases hE : g.state.has_energy = true
    · by_cases hp : (g.state.present_dropped b).2 = true
      · simp [deliverStage, hk, hE, hp]
      · simp [deliverStage, hk, hE, hp] at h2
    · simp [deliverStage, hk, hE] at h2

/-- Transferring `SafeKey` along key- and state-preserving steps. -/
theorem safeKey_of_eq (g g' : GState) (hk : g'.overBldgKey = g.overBldgKey)
    (hst : g'.state = g.state) (hs : SafeKey g) : SafeKey g' := by
  intro b hb
  rw [hst]
  exact hs b (hk ▸ hb)

/-- The delivery stage establishes `SafeKey`, given either `SafeKey` of
its input or that any keyed building is interactive (as the movement
stage guarantees for freshly resolved keys). -/
theorem deliver_safe (g : GState)
    (h : SafeKey g ∨ ∀ b, g.overBldgKey = some b →
        isInteractive (g.state.houses b) = true) :
    SafeKey (deliverStage g).1 := by
  by_cases h2 : (deliverStage g).2 = true
  · intro b0 hb0
    rw [deliverStage_true g h2] at hb0
    cases hb0
  · have h2f : (deliverStage g).2 = false := by
      cases hd2 : (deliverStage g).2
      · rfl
      · exact absurd hd2 h2
    obtain ⟨hk, hst⟩ := deliverStage_false g h2f
    apply safeKey_of_eq g _ hk hst
    rcases h with hs | hint
    · exact hs
    · intro b hb
      have hi := hint b hb
      rcases hh : g.state.houses b with _ | st
      · rw [hh] at hi
        simp [isInteractive] at hi
      · cases st with
        | undelivered sc c =>
            by_cases hE : g.state.has_energy = true
            · exfalso
              apply h2
              simp [deliverStage, hb, hE, SleighState.present_dropped, hh]
            · right
              have hle : ¬(0 : ℤ) < g.state.energy := by
                simpa [SleighState.has_energy] using hE
              omega
        | depot =>
            left
            intro sc c hcon
            cases hcon
        | done =>
            left
            intro sc c hcon
            cases hcon

/-- The update-event stage preserves `SafeKey`: a recharge can only raise
energy at a keyed `Depot`, never at a keyed undelivered house, and decay
only runs from positive energy. -/
theorem update_safe (inp : TickInput) (g : GState) (hs : SafeKey g) :
    SafeKey (updateStage inp g).1 := by
  intro b hb
  obtain ⟨hkey, _, _, hhous⟩ := updateStage_aux inp g
  rw [hkey] at hb
  rcases hs b hb with hnund | hle
  · left
    rw [hhous]
    exact hnund
  · rcases hh : g.state.houses b with _ | st
    · left
      rw [hhous, hh]
      intro sc c hcon
      cases hcon
    · cases st with
      | undelivered sc c =>
          right
          rcases hdt : inp.dt with _ | dt
          · simpa [updateStage, hdt] using hle
          · have hrc : g.state.recharge b dt = (g.state, false) := by
              simp [SleighState.recharge, hh]
            have hE : g.state.has_energy = false := by
              simp only [SleighState.has_energy, decide_eq_false_iff_not]
              omega
            by_cases hsp : inp.spaceDown = true
            · simpa [updateStage, hdt, hb, hsp, hrc, hE] using hle
            · simpa [updateStage, hdt, hb, hsp, hE] using hle
      | depot =>
          left
          rw [hhous, hh]
          intro sc c hcon
          cases hcon
      | done =>
          left
          rw [hhous, hh]
          intro sc c hcon
          cases hcon

/-- After the movement stage, either nothing happened (zero displacement)
or the session state is untouched and any keyed building is interactive. -/
theorem moveStage_cases (app : App) (inp : TickInput) (g : GState) :
    moveStage app inp g = g ∨
    ((moveStage app inp g).state = g.state ∧
      ∀ b, (moveStage app inp g).overBldgKey = some b →
        isInteractive (g.state.houses b) = true) := by
  unfold moveStage
  split
  · right
    refine ⟨rfl, ?_⟩
    intro b hb
    simp only [cachedUpdate_key] at hb
    exact ((scanKey_sound app g.state.houses
      (g.sleigh.1 + inp.dx, g.sleigh.2 + inp.dy)
      (app.getMatching (g.sleigh.1 + inp.dx, g.sleigh.2 + inp.dy))).1 b hb).2.2
  · left
    rfl

/-- One full tick preserves `SafeKey`. -/
theorem safeKey_event (app : App) (inp : TickInput) (g : GState) (hs : SafeKey g) :
    SafeKey (Game.event app inp g) := by
  have hd : SafeKey (deliverStage (moveStage app inp g)).1 := by
    rcases moveStage_cases app inp g with heq | ⟨hst, hkey⟩
    · rw [heq]
      exact deliver_safe g (Or.inl hs)
    · apply deliver_safe
      right
      intro b hb
      rw [hst]
      exact hkey b hb
  exact update_safe inp _ hd

/-- A freshly constructed game has an empty proximity cache. -/
theorem gameNew_key (app : App) (hc : Nat → Option ℤ) (g : GState)
    (h : Game.new app hc = some g) : g.overBldgKey = none := by
  unfold Game.new at h
  split at h
  · obtain rfl := Option.some.inj h
    rfl
  · cases h

/-- Every reachable game state satisfies `SafeKey`. -/
theorem reachable_safe (app : App) (hc : Nat → Option ℤ) (g : GState)
    (hr : Reachable app hc g) : SafeKey g := by
  induction hr with
  | init g hg =>
      intro b hb
      rw [gameNew_key app hc g hg] at hb
      cases hb
  | step g inp _ ih => exact safeKey_event app inp g ih

/-- Under `SafeKey`, the delivery stage reports no delivery: a keyed
building is never an undelivered house while energy is positive. -/
theorem deliverStage_false_of_safe (g : GState) (hs : SafeKey g) :
    (deliverStage g).2 = false := by
  rcases hk : g.overBldgKey with _ | b
  · simp [deliverStage, hk]
  · by_cases hE : g.state.has_energy = true
    · have hnund : ∀ sc c, g.state.houses b ≠ some (.undelivered sc c) := by
        rcases hs b hk with h | h
        · exact h
        · exfalso
          have : (0 : ℤ) < g.state.energy := by
            simpa [SleighState.has_energy] using hE
          omega
      have hpd : g.state.present_dropped b = (g.state, false) := by
        rcases hh : g.state.houses b with _ | st
        · simp [SleighState.present_dropped, hh]
        · cases st with
          | undelivered sc c => exact absurd hh (hnund sc c)
          | depot => simp [SleighState.present_dropped, hh]
          | done => simp [SleighState.present_dropped, hh]
      simp [deliverStage, hk, hE, hpd]
    · simp [deliverStage, hk, hE]

/-- C9: in any tick whose displacement is exactly zero, starting from any
reachable game state, the proximity cache's key is unchanged and no
recompute occurs — neither the resolver nor the highlight recomputation
runs (their counters are unchanged). -/
theorem C9_zero_displacement (app : App) (hc : Nat → Option ℤ) (g : GState)
    (hr : Reachable app hc g) (inp : TickInput)
    (hdx : inp.dx = 0) (hdy : inp.dy = 0) :
    (Game.event app inp g).overBldgKey = g.overBldgKey ∧
    (Game.event app inp g).highlightRecomputes = g.highlightRecomputes ∧
    (Game.event app inp g).resolveCalls = g.resolveCalls := by
  have hs := reachable_safe app hc g hr
  have hmv : moveStage app inp g = g := by
    unfold moveStage
    rw [if_neg]
    simp [hdx, hdy]
  have hev : Game.event app inp g = (updateStage inp (deliverStage (moveStage app inp g)).1).1 :=
    rfl
  rw [hev, hmv]
  obtain ⟨hdk, hdst⟩ := deliverStage_false g (deliverStage_false_of_safe g hs)
  obtain ⟨hu1, hu2, hu3, _⟩ := updateStage_aux inp (deliverStage g).1
  refine ⟨?_, ?_, ?_⟩
  · rw [hu1, hdk]
  · rw [hu2, (deliverStage_aux g).1]
  · rw [hu3, (deliverStage_aux g).2]

/-- C9, witness: a zero-displacement tick from the freshly constructed
fixture game leaves the cache key and both recompute counters unchanged. -/
theorem C9_witness :
    (Game.event capp cinp0 cg0).overBldgKey = cg0.overBldgKey ∧
    (Game.event capp cinp0 cg0).highlightRecomputes = cg0.highlightRecomputes ∧
    (Game.event capp cinp0 cg0).resolveCalls = cg0.resolveCalls :=
  C9_zero_displacement capp chc cg0 (Reachable.init cg0 rfl) cinp0 rfl rfl

end Experiment
